import Mathlib

/-!
Verification of the Agentic1/Goose message-bus bridge.

This file shallowly embeds the core of the repository:
  - `crates/bus/src/lib.rs`        (Envelope, send, recv_block, recv_block_group)
  - `crates/ag1_meta/src/lib.rs`   (normalize_content, delegate_with_opts)
  - `crates/ag1_meta/src/registry.rs` (Registry)
  - `crates/ag1goose-bridge/src/session.rs` (send_user, wait_assistant_jsonl)
  - `crates/ag1goose-bridge/src/bridge.rs`  (get_reply_to, handle_envelope)
and proves the testable properties stated in the design spec.
-/

/-- A model of `serde_json::Value`.  Objects are association lists in
insertion order; numbers are modelled as integers (the repository only
moves integral numbers through these code paths). -/
inductive Json where
  | null : Json
  | bool : Bool → Json
  | num : Int → Json
  | str : String → Json
  | arr : List Json → Json
  | obj : List (String × Json) → Json

namespace Json

/-- Lookup of a key in a JSON object, i.e. `value.get(key)` on a
`serde_json::Value` (returns `None` when the value is not an object). -/
def getField : Json → String → Option Json
  | .obj fields, key => fields.lookup key
  | _, _ => none

/-- Key membership in an association list, i.e. `Map::contains_key`. -/
def hasKey (fields : List (String × Json)) (key : String) : Bool :=
  (fields.lookup key).isSome

/-- Value::is_object. -/
def isObj : Json → Bool
  | .obj _ => true
  | _ => false

/-- Value::is_string test, used to refute the claim that normalized
content always has a *string* text field. -/
def isStr : Json → Bool
  | .str _ => true
  | _ => false

/-- Value::as_str. -/
def asStr : Json → Option String
  | .str s => some s
  | _ => none

/-- Escape one character the way `serde_json` renders string contents. -/
def escapeChar (c : Char) : String :=
  if c = '"' then "\\\""
  else if c = '\\' then "\\\\"
  else if c = '\n' then "\\n"
  else if c = '\t' then "\\t"
  else if c = '\r' then "\\r"
  else String.singleton c

/-- Escape a whole string for JSON rendering. -/
def escapeStr (s : String) : String :=
  String.join (s.toList.map escapeChar)

mutual

/-- Compact rendering of a JSON value, i.e. `serde_json::to_string`
(also `Value::to_string`). -/
def render : Json → String
  | .null => "null"
  | .bool b => if b then "true" else "false"
  | .num n => toString n
  | .str s => "\"" ++ escapeStr s ++ "\""
  | .arr xs => "[" ++ renderList xs ++ "]"
  | .obj fields => "\x7b" ++ renderFields fields ++ "\x7d"

/-- Render the elements of a JSON array, comma separated. -/
def renderList : List Json → String
  | [] => ""
  | [x] => render x
  | x :: y :: rest => render x ++ "," ++ renderList (y :: rest)

/-- Render the fields of a JSON object, comma separated. -/
def renderFields : List (String × Json) → String
  | [] => ""
  | [(k, v)] => "\"" ++ escapeStr k ++ "\":" ++ render v
  | (k, v) :: p :: rest =>
      "\"" ++ escapeStr k ++ "\":" ++ render v ++ "," ++ renderFields (p :: rest)

end

end Json

/-- Map::insert on the association-list model of a `serde_json::Map`:
replace the value when the key is present, append otherwise. -/
def mapInsert (fields : List (String × Json)) (key : String) (v : Json) :
    List (String × Json) :=
  if Json.hasKey fields key then
    fields.map fun p => if p.1 = key then (key, v) else p
  else
    fields ++ [(key, v)]

/-- Embedding of `normalize_content` (crates/ag1_meta/src/lib.rs, lines
1-26): coerce any JSON value to an object, stringifying non-object
payloads into a `text` field, then ensure a `text` key exists. -/
def normalize_content (content : Json) : Json :=
  let obj : List (String × Json) :=
    match content with
    | .obj fields => fields
    | .null => mapInsert [] "text" (.str "")
    | .str s => mapInsert [] "text" (.str s)
    | .num n => mapInsert [] "text" (.str (toString n))
    | .bool b => mapInsert [] "text" (.str (if b then "true" else "false"))
    | other => mapInsert [] "text" (.str other.render)
  let obj :=
    if Json.hasKey obj "text" then obj else mapInsert obj "text" (.str "")
  .obj obj

/-- Embedding of the `Envelope` struct (crates/bus/src/lib.rs, lines
18-45).  `headers` (a `HashMap<String,String>`) is modelled as an
association list; `delivery_count` (`Option<u32>`) as `Option Nat`. -/
structure Envelope where
  role : String
  content : Json
  session_code : Option String
  agent_name : Option String
  usage : Json
  billing_hint : Option String
  trace : List String
  user_id : Option String
  task_id : Option String
  target : Option String
  reply_to : Option String
  envelope_type : Option String
  tools_used : List String
  auth_signature : Option String
  timestamp : Option String
  headers : List (String × String)
  meta : Json
  envelope_id : Option String
  correlation_id : Option String
  consumer_group : Option String
  consumer_id : Option String
  delivery_count : Option Nat

/-- Serialize an `Option<String>` field the way serde does. -/
def encOptStr : Option String → Json
  | none => .null
  | some s => .str s

/-- Serialize an `Option<u32>` field the way serde does. -/
def encOptNat : Option Nat → Json
  | none => .null
  | some n => .num n

/-- Embedding of serde serialization of an `Envelope`
(`serde_json::to_string(env)` inside `Bus::send`), at the level of the
JSON tree. -/
def encodeEnvelope (e : Envelope) : Json :=
  .obj [
    ("role", .str e.role),
    ("content", e.content),
    ("session_code", encOptStr e.session_code),
    ("agent_name", encOptStr e.agent_name),
    ("usage", e.usage),
    ("billing_hint", encOptStr e.billing_hint),
    ("trace", .arr (e.trace.map .str)),
    ("user_id", encOptStr e.user_id),
    ("task_id", encOptStr e.task_id),
    ("target", encOptStr e.target),
    ("reply_to", encOptStr e.reply_to),
    ("envelope_type", encOptStr e.envelope_type),
    ("tools_used", .arr (e.tools_used.map .str)),
    ("auth_signature", encOptStr e.auth_signature),
    ("timestamp", encOptStr e.timestamp),
    ("headers", .obj (e.headers.map fun p => (p.1, .str p.2))),
    ("meta", e.meta),
    ("envelope_id", encOptStr e.envelope_id),
    ("correlation_id", encOptStr e.correlation_id),
    ("consumer_group", encOptStr e.consumer_group),
    ("consumer_id", encOptStr e.consumer_id),
    ("delivery_count", encOptNat e.delivery_count)]

/-- Deserialize an `Option<String>` field: absent or null gives `None`. -/
def decOptStr : Option Json → Option (Option String)
  | none => some none
  | some .null => some none
  | some (.str s) => some (some s)
  | some _ => none

/-- Sequence an option-valued function over a list, failing when any
element fails (the semantics of serde deserializing a JSON array). -/
def mapMOpt (f : α → Option β) : List α → Option (List β)
  | [] => some []
  | x :: xs => (f x).bind fun y => (mapMOpt f xs).map fun ys => y :: ys

/-- Deserialize a `Vec<String>` field with `#[serde(default)]`. -/
def decStrList : Option Json → Option (List String)
  | none => some []
  | some (.arr xs) => mapMOpt Json.asStr xs
  | some _ => none

/-- Deserialize a `HashMap<String,String>` field with `#[serde(default)]`. -/
def decHeaders : Option Json → Option (List (String × String))
  | none => some []
  | some (.obj fs) => mapMOpt (fun p => (Json.asStr p.2).map fun s => (p.1, s)) fs
  | some _ => none

/-- Deserialize an `Option<u32>` field. -/
def decOptNat : Option Json → Option (Option Nat)
  | none => some none
  | some .null => some none
  | some (.num n) => if 0 ≤ n then some (some n.toNat) else none
  | some _ => none

/-- Deserialization of the first group of `Envelope` fields: `role`
(required string), `session_code`, `agent_name`, `billing_hint`,
`trace`. -/
def decFields1 (j : Json) :
    Option (String × Option String × Option String × Option String × List String) := do
  let roleJ ← j.getField "role"
  let role ← roleJ.asStr
  let session_code ← decOptStr (j.getField "session_code")
  let agent_name ← decOptStr (j.getField "agent_name")
  let billing_hint ← decOptStr (j.getField "billing_hint")
  let trace ← decStrList (j.getField "trace")
  pure (role, session_code, agent_name, billing_hint, trace)

/-- Deserialization of the second group of `Envelope` fields: `user_id`,
`task_id`, `target`, `reply_to`, `envelope_type`, `tools_used`. -/
def decFields2 (j : Json) :
    Option (Option String × Option String × Option String × Option String
      × Option String × List String) := do
  let user_id ← decOptStr (j.getField "user_id")
  let task_id ← decOptStr (j.getField "task_id")
  let target ← decOptStr (j.getField "target")
  let reply_to ← decOptStr (j.getField "reply_to")
  let envelope_type ← decOptStr (j.getField "envelope_type")
  let tools_used ← decStrList (j.getField "tools_used")
  pure (user_id, task_id, target, reply_to, envelope_type, tools_used)

/-- Deserialization of the third group of `Envelope` fields:
`auth_signature`, `timestamp`, `headers`, `envelope_id`,
`correlation_id`. -/
def decFields3 (j : Json) :
    Option (Option String × Option String × List (String × String)
      × Option String × Option String) := do
  let auth_signature ← decOptStr (j.getField "auth_signature")
  let timestamp ← decOptStr (j.getField "timestamp")
  let headers ← decHeaders (j.getField "headers")
  let envelope_id ← decOptStr (j.getField "envelope_id")
  let correlation_id ← decOptStr (j.getField "correlation_id")
  pure (auth_signature, timestamp, headers, envelope_id, correlation_id)

/-- Deserialization of the last group of `Envelope` fields:
`consumer_group`, `consumer_id`, `delivery_count`. -/
def decFields4 (j : Json) :
    Option (Option String × Option String × Option Nat) := do
  let consumer_group ← decOptStr (j.getField "consumer_group")
  let consumer_id ← decOptStr (j.getField "consumer_id")
  let delivery_count ← decOptNat (j.getField "delivery_count")
  pure (consumer_group, consumer_id, delivery_count)

/-- Embedding of serde deserialization of an `Envelope`
(`serde_json::from_str` inside `Bus::recv_block`): `role` is required,
every other field carries `#[serde(default)]`; `content`, `usage` and
`meta` are raw `Value`s defaulting to null. -/
def decodeEnvelope (j : Json) : Option Envelope := do
  let (role, session_code, agent_name, billing_hint, trace) ← decFields1 j
  let (user_id, task_id, target, reply_to, envelope_type, tools_used) ← decFields2 j
  let (auth_signature, timestamp, headers, envelope_id, correlation_id) ← decFields3 j
  let (consumer_group, consumer_id, delivery_count) ← decFields4 j
  pure { role := role, content := (j.getField "content").getD .null,
         session_code := session_code,
         agent_name := agent_name, usage := (j.getField "usage").getD .null,
         billing_hint := billing_hint, trace := trace, user_id := user_id,
         task_id := task_id, target := target, reply_to := reply_to,
         envelope_type := envelope_type, tools_used := tools_used,
         auth_signature := auth_signature, timestamp := timestamp,
         headers := headers, meta := (j.getField "meta").getD .null,
         envelope_id := envelope_id,
         correlation_id := correlation_id, consumer_group := consumer_group,
         consumer_id := consumer_id, delivery_count := delivery_count }

/-- A Redis stream: an append-only, totally ordered list of
(entry id, payload) pairs; ids are store-assigned and monotonically
increasing.  The payload is the JSON tree stored under the `data`
field by `Bus::send`. -/
structure StreamStore where
  entries : List (Nat × Json)

/-- The largest id present in the stream (0 when empty). -/
def maxId (s : StreamStore) : Nat :=
  s.entries.foldr (fun p m => max p.1 m) 0

/-- Embedding of `Bus::send` (crates/bus/src/lib.rs, lines 79-139):
serialize the envelope and `XADD` it, the store assigning the next id;
returns the new store and the assigned id. -/
def busSend (s : StreamStore) (e : Envelope) : StreamStore × Nat :=
  let id := maxId s + 1
  (⟨s.entries ++ [(id, encodeEnvelope e)]⟩, id)

/-- Embedding of `Bus::recv_block` (crates/bus/src/lib.rs, lines
142-166): `XREAD` the first entry after `last_id`, deserialize it, and
overwrite `envelope_id` with the read-time entry id. -/
def busRecvBlock (s : StreamStore) (lastId : Nat) : Option Envelope :=
  match s.entries.find? (fun p => lastId < p.1) with
  | some (id, payload) =>
      (decodeEnvelope payload).map fun env =>
        { env with envelope_id := some (toString id) }
  | none => none

/-- Embedding of `Bus::recv_block_group` (crates/bus/src/lib.rs, lines
216-307): `XREADGROUP` claims the next entry past the group's cursor,
deserializes it, and sets `envelope_id`, `consumer_group` and
`consumer_id` on the result (and nothing else). -/
def busRecvBlockGroup (s : StreamStore) (group consumer : String)
    (cursor : Nat) : Option Envelope :=
  match s.entries.find? (fun p => cursor < p.1) with
  | some (id, payload) =>
      (decodeEnvelope payload).map fun env =>
        { env with envelope_id := some (toString id),
                   consumer_group := some group,
                   consumer_id := some consumer }
  | none => none

/-- A concrete envelope (the spec's `{role:"user", content:{text:"ping"}}`
example) used to exercise the transport reads on explicit input. -/
def pingEnvelope : Envelope :=
  { role := "user", content := .obj [("text", .str "ping")],
    session_code := none, agent_name := none, usage := .obj [],
    billing_hint := none, trace := [], user_id := none, task_id := none,
    target := none, reply_to := some "tester_inbox",
    envelope_type := some "message", tools_used := [],
    auth_signature := none, timestamp := none, headers := [],
    meta := .obj [], envelope_id := none,
    correlation_id := some "test-cid", consumer_group := none,
    consumer_id := none, delivery_count := none }

/-- Embedding of the reply-wait loop body of `delegate_with_opts`
(crates/ag1_meta/src/lib.rs, lines 208-228), abstracted over the
sequence of replies the consumer-group read delivers, in arrival order.
A matching reply is acknowledged and returned; a non-matching reply is
acknowledged and the loop keeps polling.  Returns the reply together
with the ids acknowledged so far (`none` models running into the
timeout). -/
def delegateDrain (cid : String) : List Envelope → List String → Option (Envelope × List String)
  | [], _ => none
  | r :: rest, acks =>
    if r.correlation_id = some cid then
      match r.envelope_id with
      | some id => some (r, acks ++ [id])
      | none => some (r, acks)
    else
      match r.envelope_id with
      | some id => delegateDrain cid rest (acks ++ [id])
      | none => delegateDrain cid rest acks

/-- A concrete reply carrying correlation id "cid-A", entry id "7-1". -/
def replyA : Envelope :=
  { pingEnvelope with role := "assistant",
                      correlation_id := some "cid-A",
                      envelope_id := some "7-1" }

/-- A concrete reply carrying correlation id "cid-B", entry id "7-2". -/
def replyB : Envelope :=
  { pingEnvelope with role := "assistant",
                      correlation_id := some "cid-B",
                      envelope_id := some "7-2" }

/-- Embedding of the timing skeleton of the wait loop in
`delegate_with_opts` (crates/ag1_meta/src/lib.rs, lines 205-228) when no
reply is ever published: starting from `elapsed`, each iteration checks
`elapsed >= timeout_ms` (bailing with the timeout error when true) and
otherwise blocks for `min 800 (timeout_ms - elapsed)` milliseconds —
an empty `XREADGROUP BLOCK b` returns after its full block budget, so
`elapsed` advances by exactly that slice.  The returned list is the
sequence of blocking slices before the loop fails. -/
def delegateSlices (timeoutMs elapsed : Nat) : List Nat :=
  if h : timeoutMs ≤ elapsed then []
  else
    min 800 (timeoutMs - elapsed) :: delegateSlices timeoutMs (elapsed + min 800 (timeoutMs - elapsed))
termination_by timeoutMs - elapsed
decreasing_by
  have hpos : 0 < timeoutMs - elapsed := Nat.sub_pos_of_lt (not_le.mp h)
  have hmin : 0 < min 800 (timeoutMs - elapsed) := lt_min (by norm_num) hpos
  omega

/-- The timeout error raised by `delegate_with_opts`:
`bail("no reply within T ms (cid=C)")`. -/
def delegateTimeoutMsg (timeoutMs : Nat) (cid : String) : String :=
  "no reply within " ++ toString timeoutMs ++ " ms (cid=" ++ cid ++ ")"

/-- Embedding of `AgentInfo` (crates/ag1_meta/src/registry.rs). -/
structure AgentInfo where
  name : String
  inbox : String
  description : Option String
  connector_type : Option String
  connector_details : Json
  capabilities_keywords : List String

/-- Embedding of `Registry` (crates/ag1_meta/src/registry.rs): a map
from agent name to `AgentInfo`, plus the caller's own inbox stream. -/
structure Registry where
  by_name : List (String × AgentInfo)
  goose_inbox : String

/-- Registry::get. -/
def Registry.get (reg : Registry) (name : String) : Option AgentInfo :=
  reg.by_name.lookup name

/-- Embedding of the content-preparation chain of `delegate_with_opts`
(crates/ag1_meta/src/lib.rs, lines 139-166): a match coercing strings
and non-objects into a text object, then `normalize_content`, then one
more object/text check. -/
def delegateContent (content : Json) : Json :=
  let c1 : Json :=
    match content with
    | .str s => .obj [("text", .str s)]
    | .obj fields =>
        if Json.hasKey fields "text" then .obj fields
        else .obj (mapInsert fields "text" (.str ""))
    | other => .obj [("text", .str other.render)]
  let c2 := normalize_content c1
  match c2 with
  | .obj fields =>
      if Json.hasKey fields "text" then .obj fields
      else .obj (mapInsert fields "text" (.str ""))
  | other => .obj [("text", .str other.render)]

/-- Embedding of the request-envelope construction in
`delegate_with_opts` (crates/ag1_meta/src/lib.rs, lines 168-193):
`target` is the `target` argument as passed, `reply_to` is the caller's
inbox (`in_stream`), and both `envelope_id` and `correlation_id` carry
the freshly generated correlation id `cid`. -/
def buildDelegateEnvelope (target in_stream : String) (content meta : Json)
    (role etype cid now : String) : Envelope :=
  { role := role, content := delegateContent content, session_code := none,
    agent_name := some "ag1goose", usage := .obj [], billing_hint := none,
    trace := [], user_id := none, task_id := none, target := some target,
    reply_to := some in_stream, envelope_type := some etype, tools_used := [],
    auth_signature := none, timestamp := some now, headers := [],
    meta := if meta.isObj then meta else .obj [],
    envelope_id := some cid, correlation_id := some cid,
    consumer_group := none, consumer_id := none, delivery_count := none }

/-- Embedding of `delegate_to_name_with_opts`
(crates/ag1_meta/src/lib.rs, lines 65-81): resolve the target name in
the registry and build the request, returning the stream the request
envelope is appended to (`out_stream = info.inbox`) together with the
envelope; `none` models the `unknown agent` failure. -/
def delegateToNameRequest (reg : Registry) (target_name : String)
    (content meta : Json) (role etype cid now : String) :
    Option (String × Envelope) :=
  (reg.get target_name).map fun info =>
    (info.inbox,
     buildDelegateEnvelope target_name reg.goose_inbox content meta role etype cid now)

/-- A concrete registry entry whose inbox differs from its name. -/
def echoInfo : AgentInfo :=
  { name := "Echo", inbox := "AG1:agent:Echo:inbox", description := none,
    connector_type := none, connector_details := .null,
    capabilities_keywords := [] }

/-- A registry holding only the Echo agent. -/
def echoRegistry : Registry :=
  { by_name := [("Echo", echoInfo)],
    goose_inbox := "AG1:agent:GooseAgent:inbox" }

/-- Is `pat` a prefix of `hay`? -/
def isPrefixList : List Char → List Char → Bool
  | [], _ => true
  | _ :: _, [] => false
  | p :: ps, h :: hs => p == h && isPrefixList ps hs

/-- Does the haystack contain the pattern as a contiguous sublist? -/
def containsSub (pat : List Char) : List Char → Bool
  | [] => isPrefixList pat []
  | c :: rest => isPrefixList pat (c :: rest) || containsSub pat rest

/-- Substring test (`str::contains`). -/
def strContains (s pat : String) : Bool :=
  containsSub pat.toList s.toList

/-- Outcome of `serde_json::from_str::<Value>` on an accumulated buffer:
a complete value, an incompleteness error (`e.is_eof()`), or any other
parse error. -/
inductive ParseOutcome where
  | ok : Json → ParseOutcome
  | eofIncomplete : ParseOutcome
  | bad : ParseOutcome

/-- Embedding of the assistant-record check in `wait_assistant_jsonl`
(crates/ag1goose-bridge/src/session.rs, lines 474-485): the parsed value
must have role "assistant" and a first content item with a string
`text`. -/
def assistantText (j : Json) : Option String :=
  match j.getField "role" with
  | some (.str "assistant") =>
      match j.getField "content" with
      | some (.arr (c0 :: _)) =>
          match c0.getField "text" with
          | some (.str t) => some t
          | _ => none
      | _ => none
  | _ => none

/-- Embedding of the line-processing loop of `wait_assistant_jsonl`
(crates/ag1goose-bridge/src/session.rs, lines 416-586) on a static file
modelled as its list of lines, abstracted over the JSON parser.  Each
line first advances the cumulative offset by `line length + 1` (the
newline), then: a line containing the MCP diagnostic pattern is
skipped; otherwise the line is appended to the accumulation buffer and
parsed — on success the buffer is cleared and the text and current
offset are returned if the value is an assistant record; an incomplete
parse keeps the buffer; any other parse error discards it.  `none`
models reaching the end of input without a match (timeout).  `length`
stands for the line's byte length. -/
def tailStep (parse : String → ParseOutcome) :
    List String → Nat → String → Option (String × Nat)
  | [], _, _ => none
  | line :: rest, off, buffer =>
    let nextOff := off + line.length + 1
    if strContains line "mcp_client::transport::stdio" then
      tailStep parse rest nextOff buffer
    else
      match parse (buffer ++ line) with
      | .ok j =>
          match assistantText j with
          | some t => some (t, nextOff)
          | none => tailStep parse rest nextOff ""
      | .eofIncomplete => tailStep parse rest nextOff (buffer ++ line)
      | .bad => tailStep parse rest nextOff ""

/-- Bytes occupied by one line in the file, newline included. -/
def lineBytes (l : String) : Nat := l.length + 1

/-- Bytes occupied by a list of lines. -/
def bytesOf (ls : List String) : Nat := (ls.map lineBytes).sum

/-- Seeking to byte offset `o` in a file: drop every line wholly before
the offset. -/
def dropLines : List String → Nat → List String
  | ls, 0 => ls
  | [], _ + 1 => []
  | l :: rest, o + 1 =>
      if l.length + 1 ≤ o + 1 then dropLines rest (o + 1 - (l.length + 1))
      else l :: rest

/-- A toy parser driving the reader on a two-line file: "A1" parses to
an assistant record saying "hi"; anything else is a parse error. -/
def parseStub : String → ParseOutcome := fun s =>
  if s = "A1" then
    .ok (.obj [("role", .str "assistant"),
               ("content", .arr [.obj [("text", .str "hi")]])])
  else .bad

/-- Rust `str::trim_end`: remove trailing whitespace characters. -/
def trimEndStr (s : String) : String :=
  String.mk ((s.toList.reverse.dropWhile Char.isWhitespace).reverse)

/-- Embedding of the envelope built by `GooseSession::send_user`
(crates/ag1goose-bridge/src/session.rs, lines 75-121): the input text is
first trimmed of trailing whitespace, then wrapped in a user envelope
with the fixed bridge reply-to inbox. -/
def sendUserEnvelopeJson (now text : String) : Json :=
  .obj [("role", .str "user"),
        ("content", .obj [("text", .str (trimEndStr text))]),
        ("session_code", .null),
        ("agent_name", .str "ag1goose"),
        ("usage", .obj []),
        ("billing_hint", .null),
        ("trace", .arr []),
        ("user_id", .null),
        ("task_id", .null),
        ("target", .null),
        ("reply_to", .str "AG1:agent:GooseAgent:inbox"),
        ("envelope_type", .str "message"),
        ("tools_used", .arr []),
        ("auth_signature", .null),
        ("timestamp", .str now),
        ("headers", .obj []),
        ("meta", .obj [("priority", .str "normal")])]

/-- Embedding of `GooseSession::send_user` itself: on success exactly
one message — the serialized envelope followed by one newline — is
written to the subprocess input channel (returned as the `ok` value);
a missing stdin handle or a failed write/flush is an error. -/
def send_user (stdinAvailable writeOk flushOk : Bool) (now text : String) :
    Except String String :=
  let message := (sendUserEnvelopeJson now text).render ++ "\n"
  if !stdinAvailable then .error "No stdin handle available"
  else if !writeOk then .error "Failed to write to stdin"
  else if !flushOk then .error "Failed to flush stdin"
  else .ok message

/-- Per-session bridge state: the stored byte offset into the session's
JSONL log (`GooseSession.last_offset`). -/
structure SessState where
  lastOffset : Nat

/-- The bridge's shared state (crates/ag1goose-bridge/src/bridge.rs):
the session map keyed by session id and the reply-address-to-session
mapping, both modelled as association lists. -/
structure BridgeSt where
  sessions : List (String × SessState)
  replyToSession : List (String × String)

/-- Environment of one `handle_envelope` run: outcomes of the
subprocess operations (session spawn, stdin write, JSONL wait, bus
send) and the fresh identifiers generated during the run. -/
structure BridgeOracles where
  spawnOk : Bool
  sendInputOk : Bool
  waitResult : Except String (String × Nat)
  busSendOk : Bool
  freshSid : String
  freshCid : String
  freshEnvId : String
  now : String

/-- The fixed fallback reply address used when an inbound envelope has
no `reply_to` (crates/ag1goose-bridge/src/bridge.rs, line 118). -/
def defaultReplyTo : String := "AG1:agent:TestClient:inbox"

/-- Embedding of `Bridge::get_reply_to` (bridge.rs, lines 111-123). -/
def get_reply_to (env : Envelope) : String :=
  env.reply_to.getD defaultReplyTo

/-- Update the stored offset of session `sid` in the session map. -/
def setOffset (sessions : List (String × SessState)) (sid : String) (off : Nat) :
    List (String × SessState) :=
  sessions.map fun p => if p.1 = sid then (p.1, ⟨off⟩) else p

/-- Embedding of `Bridge::handle_envelope` (bridge.rs, lines 125-249):
skip non-user envelopes; resolve the reply address (defaulting when
absent); reuse the session mapped to that address or create a mapping
to the envelope's session code (or a fresh id); start the session if
absent; extract the text; send it to the subprocess and wait for the
assistant reply (a wait error is converted into an error text, still
published); publish the reply envelope to the reply address.  Returns
the new state and the list of (stream, envelope) publications. -/
def handle_envelope (inbox : String) (o : BridgeOracles) (st : BridgeSt)
    (env : Envelope) : Except String (BridgeSt × List (String × Envelope)) :=
  if env.role ≠ "user" then .ok (st, [])
  else
    let replyTo := get_reply_to env
    let sidSt : String × BridgeSt :=
      match st.replyToSession.lookup replyTo with
      | some sessionId => (sessionId, st)
      | none =>
          let sid := env.session_code.getD o.freshSid
          (sid, { st with replyToSession := st.replyToSession ++ [(replyTo, sid)] })
    let sid := sidSt.1
    let st1 := sidSt.2
    match (if (st1.sessions.lookup sid).isSome then some st1
           else if o.spawnOk then
             some { st1 with sessions := st1.sessions ++ [(sid, ⟨0⟩)] }
           else none) with
    | none => .error "Failed to create session"
    | some st2 =>
      let cid := env.correlation_id.getD o.freshCid
      match (env.content.getField "text").bind Json.asStr with
      | none => .error "No text content in message"
      | some _message =>
        match st2.sessions.lookup sid with
        | none => .error "Session not found"
        | some _sess =>
          if !o.sendInputOk then .error "Failed to send input"
          else
            let respSt : String × BridgeSt :=
              match o.waitResult with
              | .ok (resp, newOff) =>
                  (resp, { st2 with sessions := setOffset st2.sessions sid newOff })
              | .error e => ("Error getting response from Goose: " ++ e, st2)
            let respEnv : Envelope :=
              { role := "assistant",
                content := .obj [("text", .str respSt.1),
                                 ("session_id", .str sid),
                                 ("timestamp", .str o.now)],
                session_code := some sid, agent_name := some "GooseAgent",
                usage := .obj [], billing_hint := none, trace := [],
                user_id := none, task_id := none, target := none,
                reply_to := some replyTo, envelope_type := some "message_reply",
                tools_used := [], auth_signature := none,
                timestamp := some o.now, headers := [],
                meta := .obj [("x_stream_key", .str inbox)],
                envelope_id := some o.freshEnvId,
                correlation_id := some cid,
                consumer_group := none, consumer_id := none,
                delivery_count := none }
            if o.busSendOk then .ok (respSt.2, [(replyTo, respEnv)])
            else .error "Failed to send response"

/-- A concrete inbound user envelope with reply address and correlation
id present. -/
def userEnv : Envelope :=
  { pingEnvelope with reply_to := some "AG1:agent:Client7:inbox",
                      correlation_id := some "cid-77" }

/-- Oracles for a run in which every session operation succeeds. -/
def okOracles : BridgeOracles :=
  { spawnOk := true, sendInputOk := true, waitResult := .ok ("pong", 120),
    busSendOk := true, freshSid := "sess_1", freshCid := "cid-gen",
    freshEnvId := "env-1", now := "t1" }

/-- The bridge state at startup: no sessions, no reply mappings. -/
def emptyBridgeSt : BridgeSt := { sessions := [], replyToSession := [] }

/-- A concrete inbound user envelope carrying no reply address. -/
def noReplyEnv : Envelope := { pingEnvelope with reply_to := none }

example : normalize_content (.str "hello") = .obj [("text", .str "hello")] := by rfl

example : normalize_content (.num 42) = .obj [("text", .str "42")] := by rfl

example : normalize_content .null = .obj [("text", .str "")] := by rfl

example : normalize_content (.obj [("text", .num 42)]) = .obj [("text", .num 42)] := by rfl

/-- C4, as stated, is false: an object input whose `text` field is not a
string is passed through unchanged, so the normalized `text` field is
not always a string.  Concretely, normalizing `{"text": 42}` keeps
`text` equal to the number 42. -/
theorem normalize_content_text_not_always_string :
    (normalize_content (.obj [("text", .num 42)])).getField "text" = some (.num 42)
      ∧ (Json.num 42).isStr = false := by
  constructor
  · rfl
  · rfl

/-- C4 (amended): normalization always yields a JSON object containing a
`text` key (not necessarily string-valued when the input object already
carried a non-string `text`); the bare string "hello" normalizes to text
"hello", the number 42 to text "42", and null to text "". -/
theorem normalize_content_spec :
    (∀ v : Json, ∃ fields, normalize_content v = .obj fields
        ∧ Json.hasKey fields "text" = true)
      ∧ (normalize_content (.str "hello")).getField "text" = some (.str "hello")
      ∧ (normalize_content (.num 42)).getField "text" = some (.str "42")
      ∧ (normalize_content .null).getField "text" = some (.str "") := by
  refine ⟨?_, rfl, rfl, rfl⟩
  intro v
  unfold normalize_content
  dsimp only
  set obj0 : List (String × Json) :=
    match v with
    | .obj fields => fields
    | .null => mapInsert [] "text" (.str "")
    | .str s => mapInsert [] "text" (.str s)
    | .num n => mapInsert [] "text" (.str (toString n))
    | .bool b => mapInsert [] "text" (.str (if b then "true" else "false"))
    | other => mapInsert [] "text" (.str other.render) with hobj0
  by_cases h : Json.hasKey obj0 "text" = true
  · exact ⟨obj0, by simp [h], h⟩
  · refine ⟨mapInsert obj0 "text" (.str ""), by simp [h], ?_⟩
    simp only [mapInsert, h, if_false, Json.hasKey]
    simp [List.lookup_append, Json.hasKey] at *
    simp [h]

theorem decOptStr_enc (o : Option String) : decOptStr (some (encOptStr o)) = some o := by
  cases o <;> rfl

theorem decOptNat_enc (o : Option Nat) : decOptNat (some (encOptNat o)) = some o := by
  cases o with
  | none => rfl
  | some n => simp [encOptNat, decOptNat]

theorem asStr_str (s : String) : Json.asStr (.str s) = some s := rfl

theorem mapM_asStr_map (l : List String) :
    mapMOpt Json.asStr (l.map Json.str) = some l := by
  induction l with
  | nil => rfl
  | cons x xs ih => simp [mapMOpt, ih, asStr_str]

theorem mapM_headers_map (l : List (String × String)) :
    mapMOpt (fun p => (Json.asStr p.2).map fun s => (p.1, s))
      (l.map fun p => (p.1, Json.str p.2)) = some l := by
  induction l with
  | nil => rfl
  | cons x xs ih => simp [mapMOpt, ih, asStr_str]

theorem decStrList_enc (l : List String) :
    decStrList (some (.arr (l.map .str))) = some l := by
  simp [decStrList, mapM_asStr_map]

theorem decHeaders_enc (l : List (String × String)) :
    decHeaders (some (.obj (l.map fun p => (p.1, Json.str p.2)))) = some l := by
  simp [decHeaders, mapM_headers_map]

theorem enc_get_role (e : Envelope) :
    (encodeEnvelope e).getField "role" = some (.str e.role) := rfl

theorem enc_get_content (e : Envelope) :
    (encodeEnvelope e).getField "content" = some e.content := rfl

theorem enc_get_session_code (e : Envelope) :
    (encodeEnvelope e).getField "session_code" = some (encOptStr e.session_code) := rfl

theorem enc_get_agent_name (e : Envelope) :
    (encodeEnvelope e).getField "agent_name" = some (encOptStr e.agent_name) := rfl

theorem enc_get_usage (e : Envelope) :
    (encodeEnvelope e).getField "usage" = some e.usage := rfl

theorem enc_get_billing_hint (e : Envelope) :
    (encodeEnvelope e).getField "billing_hint" = some (encOptStr e.billing_hint) := rfl

theorem enc_get_trace (e : Envelope) :
    (encodeEnvelope e).getField "trace" = some (.arr (e.trace.map .str)) := rfl

theorem enc_get_user_id (e : Envelope) :
    (encodeEnvelope e).getField "user_id" = some (encOptStr e.user_id) := rfl

theorem enc_get_task_id (e : Envelope) :
    (encodeEnvelope e).getField "task_id" = some (encOptStr e.task_id) := rfl

theorem enc_get_target (e : Envelope) :
    (encodeEnvelope e).getField "target" = some (encOptStr e.target) := rfl

theorem enc_get_reply_to (e : Envelope) :
    (encodeEnvelope e).getField "reply_to" = some (encOptStr e.reply_to) := rfl

theorem enc_get_envelope_type (e : Envelope) :
    (encodeEnvelope e).getField "envelope_type" = some (encOptStr e.envelope_type) := rfl

theorem enc_get_tools_used (e : Envelope) :
    (encodeEnvelope e).getField "tools_used" = some (.arr (e.tools_used.map .str)) := rfl

theorem enc_get_auth_signature (e : Envelope) :
    (encodeEnvelope e).getField "auth_signature" = some (encOptStr e.auth_signature) := rfl

theorem enc_get_timestamp (e : Envelope) :
    (encodeEnvelope e).getField "timestamp" = some (encOptStr e.timestamp) := rfl

theorem enc_get_headers (e : Envelope) :
    (encodeEnvelope e).getField "headers"
      = some (.obj (e.headers.map fun p => (p.1, .str p.2))) := rfl

theorem enc_get_meta (e : Envelope) :
    (encodeEnvelope e).getField "meta" = some e.meta := rfl

theorem enc_get_envelope_id (e : Envelope) :
    (encodeEnvelope e).getField "envelope_id" = some (encOptStr e.envelope_id) := rfl

theorem enc_get_correlation_id (e : Envelope) :
    (encodeEnvelope e).getField "correlation_id" = some (encOptStr e.correlation_id) := rfl

theorem enc_get_consumer_group (e : Envelope) :
    (encodeEnvelope e).getField "consumer_group" = some (encOptStr e.consumer_group) := rfl

theorem enc_get_consumer_id (e : Envelope) :
    (encodeEnvelope e).getField "consumer_id" = some (encOptStr e.consumer_id) := rfl

theorem enc_get_delivery_count (e : Envelope) :
    (encodeEnvelope e).getField "delivery_count" = some (encOptNat e.delivery_count) := rfl

theorem decFields1_enc (e : Envelope) :
    decFields1 (encodeEnvelope e)
      = some (e.role, e.session_code, e.agent_name, e.billing_hint, e.trace) := by
  simp [decFields1, enc_get_role, enc_get_session_code, enc_get_agent_name,
    enc_get_billing_hint, enc_get_trace, decOptStr_enc, decStrList_enc, Json.asStr]

theorem decFields2_enc (e : Envelope) :
    decFields2 (encodeEnvelope e)
      = some (e.user_id, e.task_id, e.target, e.reply_to, e.envelope_type,
          e.tools_used) := by
  simp [decFields2, enc_get_user_id, enc_get_task_id, enc_get_target,
    enc_get_reply_to, enc_get_envelope_type, enc_get_tools_used,
    decOptStr_enc, decStrList_enc]

theorem decFields3_enc (e : Envelope) :
    decFields3 (encodeEnvelope e)
      = some (e.auth_signature, e.timestamp, e.headers, e.envelope_id,
          e.correlation_id) := by
  simp [decFields3, enc_get_auth_signature, enc_get_timestamp,
    enc_get_headers, enc_get_envelope_id, enc_get_correlation_id,
    decOptStr_enc, decHeaders_enc]

theorem decFields4_enc (e : Envelope) :
    decFields4 (encodeEnvelope e)
      = some (e.consumer_group, e.consumer_id, e.delivery_count) := by
  simp [decFields4, enc_get_consumer_group, enc_get_consumer_id,
    enc_get_delivery_count, decOptStr_enc, decOptNat_enc]

/-- Serde round-trip on envelopes: deserializing a serialized envelope
recovers every field. -/
theorem decodeEnvelope_encodeEnvelope (e : Envelope) :
    decodeEnvelope (encodeEnvelope e) = some e := by
  simp [decodeEnvelope, decFields1_enc, decFields2_enc, decFields3_enc,
    decFields4_enc, enc_get_content, enc_get_usage, enc_get_meta]

theorem le_foldr_max (l : List (Nat × Json)) :
    ∀ p ∈ l, p.1 ≤ l.foldr (fun p m => max p.1 m) 0 := by
  induction l with
  | nil => intro p hp; cases hp
  | cons q rest ih =>
      intro p hp
      simp only [List.foldr]
      rcases List.mem_cons.mp hp with h | h
      · subst h; exact le_max_left _ _
      · exact le_trans (ih p h) (le_max_right _ _)

theorem le_maxId (s : StreamStore) :
    ∀ p ∈ s.entries, p.1 ≤ maxId s :=
  le_foldr_max s.entries

theorem find?_fresh (s : StreamStore) (payload : Json) :
    (s.entries ++ [(maxId s + 1, payload)]).find?
        (fun p => maxId s < p.1) = some (maxId s + 1, payload) := by
  have hnone : s.entries.find? (fun p => maxId s < p.1) = none := by
    rw [List.find?_eq_none]
    intro p hp
    simp only [decide_eq_true_eq]
    exact not_lt.mpr (le_maxId s p hp)
  rw [List.find?_append, hnone]
  simp

/-- C5: an envelope appended by `send` and read back by `recv_block`
from a position before its id comes back equal in every field except
`envelope_id`, which is overwritten with the store-assigned entry id,
overriding whatever the sender put there. -/
theorem send_recv_block_round_trip (s : StreamStore) (e : Envelope) :
    busRecvBlock (busSend s e).1 (maxId s)
      = some { e with envelope_id := some (toString (busSend s e).2) } := by
  have h1 := find?_fresh s (encodeEnvelope e)
  unfold busRecvBlock busSend
  simp only [h1, decodeEnvelope_encodeEnvelope, Option.map_some]
  rfl

theorem find?_fresh_group (s : StreamStore) (payload : Json) :
    (s.entries ++ [(maxId s + 1, payload)]).find?
        (fun p => maxId s < p.1) = some (maxId s + 1, payload) :=
  find?_fresh s payload

/-- C8 (amended): a consumer-group read populates `consumer_group` and
`consumer_id` (and overwrites `envelope_id` with the entry id), but
leaves `delivery_count` exactly as the sender serialized it — the code
never sets it; a plain bounded read leaves all three fields as
serialized, i.e. absent when the sender left them absent. -/
theorem recv_block_group_sets_consumer_fields
    (s : StreamStore) (e : Envelope) (g c : String) :
    busRecvBlockGroup (busSend s e).1 g c (maxId s)
      = some { e with envelope_id := some (toString (busSend s e).2),
                      consumer_group := some g,
                      consumer_id := some c }
      ∧ busRecvBlock (busSend s e).1 (maxId s)
      = some { e with envelope_id := some (toString (busSend s e).2) } := by
  have h1 := find?_fresh s (encodeEnvelope e)
  constructor
  · unfold busRecvBlockGroup busSend
    simp only [h1, decodeEnvelope_encodeEnvelope, Option.map_some]
    rfl
  · unfold busRecvBlock busSend
    simp only [h1, decodeEnvelope_encodeEnvelope, Option.map_some]
    rfl

/-- C8, as stated, is false: a consumer-group read does not populate
`delivery_count` — reading back a freshly appended envelope through a
group sets `consumer_group` and `consumer_id` but the returned
`delivery_count` is still absent (`none`), not the store's count. -/
theorem recv_block_group_delivery_count_absent :
    ((busRecvBlockGroup (busSend ⟨[]⟩ pingEnvelope).1 "grp" "worker-1" 0).map
        Envelope.consumer_group) = some (some "grp")
      ∧ ((busRecvBlockGroup (busSend ⟨[]⟩ pingEnvelope).1 "grp" "worker-1" 0).map
        Envelope.consumer_id) = some (some "worker-1")
      ∧ ((busRecvBlockGroup (busSend ⟨[]⟩ pingEnvelope).1 "grp" "worker-1" 0).map
        Envelope.delivery_count) = some none := by
  refine ⟨rfl, rfl, rfl⟩

theorem delegateDrain_correlation (cid : String) :
    ∀ (rs : List Envelope) (acks : List String) (r : Envelope) (acks' : List String),
      delegateDrain cid rs acks = some (r, acks') → r.correlation_id = some cid := by
  intro rs
  induction rs with
  | nil => intro acks r acks' h; cases h
  | cons q rest ih =>
      intro acks r acks' h
      by_cases hq : q.correlation_id = some cid
      · simp only [delegateDrain, hq, if_true] at h
        cases hid : q.envelope_id <;> rw [hid] at h <;>
          (cases h; exact hq)
      · simp only [delegateDrain, hq, if_false] at h
        cases hid : q.envelope_id <;> rw [hid] at h
        · exact ih acks r acks' h
        · exact ih (acks ++ [_]) r acks' h

/-- C1: with two replies carrying distinct correlation ids A and B on
the same inbox, the delegator waiting on A returns only the envelope
whose correlation id is A, acknowledging it before returning, and
acknowledges but discards the B envelope whenever it is delivered
first — in either arrival order; in general any returned reply carries
the awaited correlation id. -/
theorem delegate_correlation_matching
    (A B ia ib : String) (eA eB : Envelope)
    (hA : eA.correlation_id = some A) (hB : eB.correlation_id = some B)
    (hia : eA.envelope_id = some ia) (hib : eB.envelope_id = some ib)
    (hAB : A ≠ B) :
    delegateDrain A [eA, eB] [] = some (eA, [ia])
      ∧ delegateDrain A [eB, eA] [] = some (eA, [ib, ia])
      ∧ (∀ (rs : List Envelope) (acks : List String) (r : Envelope) (acks' : List String),
          delegateDrain A rs acks = some (r, acks') → r.correlation_id = some A) := by
  have hBne : ¬ eB.correlation_id = some A := by
    rw [hB]
    intro hco
    exact hAB (Option.some.injEq B A ▸ hco).symm
  refine ⟨?_, ?_, delegateDrain_correlation A⟩
  · simp [delegateDrain, hA, hia]
  · simp [delegateDrain, hA, hia, hib, hBne]

theorem delegate_correlation_matching_witness :
    delegateDrain "cid-A" [replyA, replyB] [] = some (replyA, ["7-1"])
      ∧ delegateDrain "cid-A" [replyB, replyA] [] = some (replyA, ["7-2", "7-1"]) := by
  have h := delegate_correlation_matching "cid-A" "cid-B" "7-1" "7-2" replyA replyB
    rfl rfl rfl rfl (by decide)
  exact ⟨h.1, h.2.1⟩

theorem delegateSlices_sum_aux (t : Nat) :
    ∀ (n e : Nat), t - e ≤ n →
      (delegateSlices t e).sum = t - e
        ∧ (∀ b ∈ delegateSlices t e, 0 < b ∧ b ≤ 800) := by
  intro n
  induction n with
  | zero =>
      intro e he
      have hle : t ≤ e := Nat.sub_eq_zero_iff_le.mp (Nat.le_zero.mp he)
      rw [delegateSlices]
      simp [hle, Nat.sub_eq_zero_of_le hle]
  | succ n ih =>
      intro e he
      by_cases hle : t ≤ e
      · rw [delegateSlices]
        simp [hle, Nat.sub_eq_zero_of_le hle]
      · have hpos : 0 < t - e := Nat.sub_pos_of_lt (not_le.mp hle)
        have hmin : 0 < min 800 (t - e) := lt_min (by norm_num) hpos
        have hminle : min 800 (t - e) ≤ t - e := min_le_right _ _
        have hnext : t - (e + min 800 (t - e)) ≤ n := by omega
        obtain ⟨ihsum, ihmem⟩ := ih (e + min 800 (t - e)) hnext
        rw [delegateSlices]
        simp only [hle, dif_neg, not_false_iff, List.sum_cons, List.mem_cons]
        constructor
        · rw [ihsum]; omega
        · intro b hb
          rcases hb with hb | hb
          · subst hb
            exact ⟨hmin, min_le_left _ _⟩
          · exact ihmem b hb

/-- C2: with no reply ever published, the delegator always fails with a
timeout error naming the correlation id; the slices blocked on are each
`min 800 remaining` (so at most 800 ms and nonzero), and their total is
exactly the timeout budget, so the loop cannot block indefinitely and
failure occurs at the deadline — at most one slice beyond it. -/
theorem delegate_timeout_spec (timeoutMs : Nat) (cid : String) :
    (delegateTimeoutMsg timeoutMs cid
        = ("no reply within " ++ toString timeoutMs ++ " ms (cid=") ++ cid ++ ")")
      ∧ (delegateSlices timeoutMs 0).sum = timeoutMs
      ∧ (∀ b ∈ delegateSlices timeoutMs 0, 0 < b ∧ b ≤ 800)
      ∧ (∀ e, e < timeoutMs →
          delegateSlices timeoutMs e
            = min 800 (timeoutMs - e)
                :: delegateSlices timeoutMs (e + min 800 (timeoutMs - e))) := by
  obtain ⟨hsum, hmem⟩ := delegateSlices_sum_aux timeoutMs (timeoutMs - 0) 0 le_rfl
  refine ⟨rfl, by simpa using hsum, hmem, ?_⟩
  intro e he
  rw [delegateSlices]
  simp [not_le.mpr he]

theorem delegate_timeout_spec_witness :
    (delegateTimeoutMsg 100 "cid-xyz"
        = ("no reply within " ++ toString 100 ++ " ms (cid=") ++ "cid-xyz" ++ ")")
      ∧ (delegateSlices 100 0).sum = 100
      ∧ (0 < 100 ∧ 100 ≤ 800)
      ∧ delegateSlices 100 0 = [100] := by
  have h := delegate_timeout_spec 100 "cid-xyz"
  have hunfold : delegateSlices 100 0 = [100] := by
    rw [delegateSlices]
    norm_num
    rw [delegateSlices]
    norm_num
  have hmem : 100 ∈ delegateSlices 100 0 := by rw [hunfold]; exact List.mem_singleton.mpr rfl
  exact ⟨h.1, h.2.1, h.2.2.1 100 hmem, hunfold⟩

/-- C7, as stated, is false: delegating to the agent "Echo" (registered
inbox "AG1:agent:Echo:inbox") builds a request envelope whose `target`
field is the agent *name* "Echo", not the resolved inbox — the code
passes `target_name` as `target` while appending to `info.inbox`. -/
theorem delegate_target_field_is_name :
    ((delegateToNameRequest echoRegistry "Echo" (.str "hi") (.obj [])
        "user" "message" "cid-1" "t0").map fun p => p.2.target)
      = some (some "Echo")
      ∧ ((delegateToNameRequest echoRegistry "Echo" (.str "hi") (.obj [])
        "user" "message" "cid-1" "t0").map fun p => p.1)
      = some "AG1:agent:Echo:inbox"
      ∧ some "Echo" ≠ some "AG1:agent:Echo:inbox" := by
  refine ⟨rfl, rfl, by decide⟩

/-- C7 (amended): the request envelope built by delegation has
`reply_to` equal to the caller's own inbox, `correlation_id` equal to
the freshly generated id (also copied into `envelope_id`), and `target`
equal to the target agent's *name*; the envelope is appended to the
resolved inbox stream obtained from the registry lookup. -/
theorem delegate_request_fields (reg : Registry) (name : String)
    (info : AgentInfo) (content meta : Json) (role etype cid now : String)
    (h : reg.get name = some info) :
    delegateToNameRequest reg name content meta role etype cid now
      = some (info.inbox,
          buildDelegateEnvelope name reg.goose_inbox content meta role etype cid now)
      ∧ (buildDelegateEnvelope name reg.goose_inbox content meta role etype cid now).reply_to
          = some reg.goose_inbox
      ∧ (buildDelegateEnvelope name reg.goose_inbox content meta role etype cid now).correlation_id
          = some cid
      ∧ (buildDelegateEnvelope name reg.goose_inbox content meta role etype cid now).envelope_id
          = some cid
      ∧ (buildDelegateEnvelope name reg.goose_inbox content meta role etype cid now).target
          = some name := by
  refine ⟨?_, rfl, rfl, rfl, rfl⟩
  simp [delegateToNameRequest, h]

theorem delegate_request_fields_witness :
    delegateToNameRequest echoRegistry "Echo" (.str "hi") (.obj [])
        "user" "message" "cid-1" "t0"
      = some ("AG1:agent:Echo:inbox",
          buildDelegateEnvelope "Echo" "AG1:agent:GooseAgent:inbox"
            (.str "hi") (.obj []) "user" "message" "cid-1" "t0")
      ∧ (buildDelegateEnvelope "Echo" "AG1:agent:GooseAgent:inbox"
            (.str "hi") (.obj []) "user" "message" "cid-1" "t0").reply_to
          = some "AG1:agent:GooseAgent:inbox" := by
  have h := delegate_request_fields echoRegistry "Echo" echoInfo
    (.str "hi") (.obj []) "user" "message" "cid-1" "t0" rfl
  exact ⟨h.1, h.2.1⟩

theorem dropLines_zero (ls : List String) : dropLines ls 0 = ls := by
  cases ls <;> rfl

theorem dropLines_append :
    ∀ (xs rest : List String), dropLines (xs ++ rest) (bytesOf xs) = rest := by
  intro xs
  induction xs with
  | nil =>
      intro rest
      simp only [List.nil_append, bytesOf, List.map_nil, List.sum_nil]
      exact dropLines_zero rest
  | cons l xs ih =>
      intro rest
      have hb : bytesOf (l :: xs) = (l.length + bytesOf xs) + 1 := by
        simp [bytesOf, lineBytes]; omega
      rw [hb]
      show dropLines (l :: (xs ++ rest)) ((l.length + bytesOf xs) + 1) = rest
      rw [dropLines]
      have hc : l.length + 1 ≤ (l.length + bytesOf xs) + 1 := by omega
      rw [if_pos hc]
      have harg : (l.length + bytesOf xs) + 1 - (l.length + 1) = bytesOf xs := by omega
      rw [harg]
      exact ih rest

theorem dropLines_take (ls : List String) (k : Nat) :
    dropLines ls (bytesOf (ls.take k)) = ls.drop k := by
  have h := dropLines_append (ls.take k) (ls.drop k)
  rwa [List.take_append_drop] at h

theorem one_le_bytesOf_take (ls : List String) (k : Nat)
    (h1 : 1 ≤ k) (h2 : k ≤ ls.length) : 1 ≤ bytesOf (ls.take k) := by
  cases ls with
  | nil => simp at h2; omega
  | cons l rest =>
      cases k with
      | zero => omega
      | succ k =>
          simp only [List.take_succ_cons, bytesOf, List.map_cons, List.sum_cons,
            lineBytes]
          omega

theorem tailStep_consumes (parse : String → ParseOutcome) :
    ∀ (ls : List String) (off : Nat) (buffer t : String) (off2 : Nat),
      tailStep parse ls off buffer = some (t, off2) →
      ∃ k, 1 ≤ k ∧ k ≤ ls.length ∧ off2 = off + bytesOf (ls.take k) := by
  intro ls
  induction ls with
  | nil => intro off buffer t off2 h; cases h
  | cons line rest ih =>
      intro off buffer t off2 h
      rw [tailStep] at h
      by_cases hm : strContains line "mcp_client::transport::stdio" = true
      · rw [if_pos hm] at h
        obtain ⟨k, hk1, hk2, hk3⟩ := ih _ _ _ _ h
        refine ⟨k + 1, by omega, by simp; omega, ?_⟩
        simp only [List.take_succ_cons, bytesOf, List.map_cons, List.sum_cons, lineBytes]
        simp only [bytesOf] at hk3
        omega
      · rw [if_neg hm] at h
        cases hp : parse (buffer ++ line) with
        | ok j =>
            rw [hp] at h
            dsimp only at h
            cases ha : assistantText j with
            | some t0 =>
                rw [ha] at h
                injection h with h'
                injection h' with h1 h2
                refine ⟨1, le_rfl, by simp, ?_⟩
                simp only [List.take_succ_cons, List.take_zero, bytesOf,
                  List.map_cons, List.map_nil, List.sum_cons, List.sum_nil, lineBytes]
                omega
            | none =>
                rw [ha] at h
                obtain ⟨k, hk1, hk2, hk3⟩ := ih _ _ _ _ h
                refine ⟨k + 1, by omega, by simp; omega, ?_⟩
                simp only [List.take_succ_cons, bytesOf, List.map_cons,
                  List.sum_cons, lineBytes]
                simp only [bytesOf] at hk3
                omega
        | eofIncomplete =>
            rw [hp] at h
            dsimp only at h
            obtain ⟨k, hk1, hk2, hk3⟩ := ih _ _ _ _ h
            refine ⟨k + 1, by omega, by simp; omega, ?_⟩
            simp only [List.take_succ_cons, bytesOf, List.map_cons,
              List.sum_cons, lineBytes]
            simp only [bytesOf] at hk3
            omega
        | bad =>
            rw [hp] at h
            dsimp only at h
            obtain ⟨k, hk1, hk2, hk3⟩ := ih _ _ _ _ h
            refine ⟨k + 1, by omega, by simp; omega, ?_⟩
            simp only [List.take_succ_cons, bytesOf, List.map_cons,
              List.sum_cons, lineBytes]
            simp only [bytesOf] at hk3
            omega

/-- C3: whenever the tail reader returns `(text, off2)` for a read that
started at byte `off` of the file, the returned offset is strictly
greater than `off`, and it falls exactly on the boundary after the `k`
lines consumed (the last of which completed the matched assistant
record) — so re-reading the same file contents from `off2` sees only
the lines strictly after the matched record and cannot return the same
record occurrence again. -/
theorem wait_assistant_jsonl_offset (parse : String → ParseOutcome)
    (ls : List String) (off : Nat) (t : String) (off2 : Nat)
    (h : tailStep parse ls off "" = some (t, off2)) :
    off < off2
      ∧ ∃ k, 1 ≤ k ∧ k ≤ ls.length
          ∧ off2 = off + bytesOf (ls.take k)
          ∧ dropLines ls (off2 - off) = ls.drop k := by
  obtain ⟨k, hk1, hk2, hk3⟩ := tailStep_consumes parse ls off "" t off2 h
  have hpos := one_le_bytesOf_take ls k hk1 hk2
  refine ⟨by omega, k, hk1, hk2, hk3, ?_⟩
  have : off2 - off = bytesOf (ls.take k) := by omega
  rw [this]
  exact dropLines_take ls k

theorem wait_assistant_jsonl_offset_witness :
    (0 : Nat) < 8
      ∧ ∃ k, 1 ≤ k ∧ k ≤ (["junk", "A1"] : List String).length
          ∧ 8 = 0 + bytesOf ((["junk", "A1"] : List String).take k)
          ∧ dropLines ["junk", "A1"] (8 - 0) = (["junk", "A1"] : List String).drop k :=
  wait_assistant_jsonl_offset parseStub ["junk", "A1"] 0 "hi" 8 rfl

example : trimEndStr "hi " = "hi" := by rfl

example : trimEndStr "hi" = "hi" := by rfl

/-- C9, as stated, is false: `send_user` trims trailing whitespace from
the input before wrapping it, so for the input "hi " the envelope's
`content.text` is "hi", not the given text. -/
theorem send_user_text_trimmed :
    ((sendUserEnvelopeJson "t0" "hi ").getField "content").bind
        (fun c => c.getField "text") = some (.str "hi")
      ∧ "hi" ≠ "hi " := by
  refine ⟨rfl, by decide⟩

/-- C9 (amended): `send_user` writes exactly one newline-terminated
JSON envelope whose role is "user", whose `content.text` equals the
given text with trailing whitespace removed (hence equals the given
text whenever it has none), and whose `reply_to` is the fixed bridge
inbox "AG1:agent:GooseAgent:inbox"; it fails when no input channel
handle is available or when the channel write (or flush) fails. -/
theorem send_user_spec (stdinAvailable writeOk flushOk : Bool)
    (now text : String) :
    (stdinAvailable = true → writeOk = true → flushOk = true →
        send_user stdinAvailable writeOk flushOk now text
          = .ok ((sendUserEnvelopeJson now text).render ++ "\n"))
      ∧ (sendUserEnvelopeJson now text).getField "role" = some (.str "user")
      ∧ ((sendUserEnvelopeJson now text).getField "content").bind
          (fun c => c.getField "text") = some (.str (trimEndStr text))
      ∧ (sendUserEnvelopeJson now text).getField "reply_to"
          = some (.str "AG1:agent:GooseAgent:inbox")
      ∧ (stdinAvailable = false →
          send_user stdinAvailable writeOk flushOk now text
            = .error "No stdin handle available")
      ∧ (stdinAvailable = true → writeOk = false →
          send_user stdinAvailable writeOk flushOk now text
            = .error "Failed to write to stdin") := by
  refine ⟨?_, rfl, rfl, rfl, ?_, ?_⟩
  · intro h1 h2 h3
    simp [send_user, h1, h2, h3]
  · intro h1
    simp [send_user, h1]
  · intro h1 h2
    simp [send_user, h1, h2]

theorem send_user_spec_witness :
    send_user true true true "t0" "hello"
        = .ok ((sendUserEnvelopeJson "t0" "hello").render ++ "\n")
      ∧ ((sendUserEnvelopeJson "t0" "hello").getField "content").bind
          (fun c => c.getField "text") = some (.str (trimEndStr "hello"))
      ∧ send_user false true true "t0" "hello"
        = .error "No stdin handle available" := by
  have h := send_user_spec true true true "t0" "hello"
  have h2 := send_user_spec false true true "t0" "hello"
  exact ⟨h.1 rfl rfl rfl, h.2.2.1, h2.2.2.2.2.1 rfl⟩

theorem lookup_append_none {β : Type} (l : List (String × β)) (k : String) (v : β)
    (h : l.lookup k = none) : (l ++ [(k, v)]).lookup k = some v := by
  induction l with
  | nil => simp [List.lookup]
  | cons p rest ih =>
      obtain ⟨k1, v1⟩ := p
      simp only [List.lookup, List.cons_append] at *
      cases hk : (k == k1) with
      | true => rw [hk] at h; dsimp only at h; cases h
      | false =>
          rw [hk] at h
          dsimp only at h ⊢
          exact ih h

/-- C6: a non-user envelope is silently skipped — the bridge state is
unchanged, nothing is published, no session is created, and the handler
returns success so the loop continues; a user envelope carrying text
(with its reply address and correlation id present) leads, when the
session operations succeed, to exactly one publication: a reply
envelope with role "assistant", the same correlation id as the request
and the request's `reply_to` echoed, appended to that original
`reply_to` stream. -/
theorem bridge_handle_envelope_spec (inbox : String) (o : BridgeOracles)
    (st : BridgeSt) (env : Envelope) :
    (env.role ≠ "user" → handle_envelope inbox o st env = .ok (st, []))
      ∧ (∀ rt c msg, env.role = "user" → env.reply_to = some rt →
          env.correlation_id = some c →
          (env.content.getField "text").bind Json.asStr = some msg →
          o.spawnOk = true → o.sendInputOk = true → o.busSendOk = true →
          ∃ st' resp, handle_envelope inbox o st env = .ok (st', [(rt, resp)])
            ∧ resp.role = "assistant"
            ∧ resp.correlation_id = some c
            ∧ resp.reply_to = some rt) := by
  constructor
  · intro hrole
    simp [handle_envelope, hrole]
  · intro rt c msg hrole hrt hcid hmsg hspawn hsend hbus
    unfold handle_envelope
    rw [if_neg (by simp [hrole])]
    simp only [get_reply_to, hrt, Option.getD_some, hcid, hmsg, hspawn, hsend, hbus]
    cases hl : st.replyToSession.lookup rt with
    | some sid0 =>
        simp only [hl]
        by_cases hs : (st.sessions.lookup sid0).isSome
        · simp only [hs, if_true]
          rw [(Option.isSome_iff_exists.mp hs).choose_spec]
          cases hw : o.waitResult with
          | ok p => exact ⟨_, _, rfl, rfl, rfl, rfl⟩
          | error e => exact ⟨_, _, rfl, rfl, rfl, rfl⟩
        · simp only [hs, if_false, Bool.false_eq_true, if_true]
          have hnone : st.sessions.lookup sid0 = none :=
            Option.not_isSome_iff_eq_none.mp hs
          rw [lookup_append_none st.sessions sid0 ⟨0⟩ hnone]
          cases hw : o.waitResult with
          | ok p => exact ⟨_, _, rfl, rfl, rfl, rfl⟩
          | error e => exact ⟨_, _, rfl, rfl, rfl, rfl⟩
    | none =>
        simp only [hl]
        by_cases hs : (st.sessions.lookup (env.session_code.getD o.freshSid)).isSome
        · simp only [hs, if_true]
          rw [(Option.isSome_iff_exists.mp hs).choose_spec]
          cases hw : o.waitResult with
          | ok p => exact ⟨_, _, rfl, rfl, rfl, rfl⟩
          | error e => exact ⟨_, _, rfl, rfl, rfl, rfl⟩
        · simp only [hs, if_false, Bool.false_eq_true, if_true]
          have hnone : st.sessions.lookup (env.session_code.getD o.freshSid) = none :=
            Option.not_isSome_iff_eq_none.mp hs
          rw [lookup_append_none st.sessions _ ⟨0⟩ hnone]
          cases hw : o.waitResult with
          | ok p => exact ⟨_, _, rfl, rfl, rfl, rfl⟩
          | error e => exact ⟨_, _, rfl, rfl, rfl, rfl⟩

theorem bridge_handle_envelope_spec_witness :
    (∃ st' resp,
        handle_envelope "AG1:agent:GooseAgent:inbox" okOracles emptyBridgeSt userEnv
          = .ok (st', [("AG1:agent:Client7:inbox", resp)])
        ∧ resp.role = "assistant"
        ∧ resp.correlation_id = some "cid-77"
        ∧ resp.reply_to = some "AG1:agent:Client7:inbox")
      ∧ handle_envelope "AG1:agent:GooseAgent:inbox" okOracles emptyBridgeSt
          { userEnv with role := "assistant" } = .ok (emptyBridgeSt, []) := by
  have h := bridge_handle_envelope_spec "AG1:agent:GooseAgent:inbox" okOracles
    emptyBridgeSt userEnv
  have h2 := bridge_handle_envelope_spec "AG1:agent:GooseAgent:inbox" okOracles
    emptyBridgeSt { userEnv with role := "assistant" }
  exact ⟨h.2 "AG1:agent:Client7:inbox" "cid-77" "ping" rfl rfl rfl rfl rfl rfl rfl,
         h2.1 (by decide)⟩

/-- C10: a user envelope without a `reply_to` is not rejected — the
bridge substitutes the fixed default address, publishes the reply to
that default stream with `reply_to` set to it, keys the session mapping
under the default address, and reuses whatever session was already
mapped there, so every reply_to-less envelope shares one session. -/
theorem bridge_default_reply_to_spec (inbox : String) (o : BridgeOracles)
    (st : BridgeSt) (env : Envelope) (msg : String)
    (hrole : env.role = "user") (hrt : env.reply_to = none)
    (hmsg : (env.content.getField "text").bind Json.asStr = some msg)
    (hspawn : o.spawnOk = true) (hsend : o.sendInputOk = true)
    (hbus : o.busSendOk = true) :
    ∃ st' resp sid,
      handle_envelope inbox o st env = .ok (st', [(defaultReplyTo, resp)])
        ∧ resp.reply_to = some defaultReplyTo
        ∧ resp.session_code = some sid
        ∧ st'.replyToSession.lookup defaultReplyTo = some sid
        ∧ (∀ sid0, st.replyToSession.lookup defaultReplyTo = some sid0 → sid = sid0) := by
  unfold handle_envelope
  rw [if_neg (by simp [hrole])]
  simp only [get_reply_to, hrt, Option.getD_none, hmsg, hspawn, hsend, hbus]
  cases hl : st.replyToSession.lookup defaultReplyTo with
  | some sid0 =>
      simp only [hl]
      by_cases hs : (st.sessions.lookup sid0).isSome
      · simp only [hs, if_true]
        rw [(Option.isSome_iff_exists.mp hs).choose_spec]
        cases hw : o.waitResult with
        | ok p =>
            exact ⟨_, _, sid0, rfl, rfl, rfl, hl,
                   fun s0 h0 => Option.some.inj h0⟩
        | error e =>
            exact ⟨_, _, sid0, rfl, rfl, rfl, hl,
                   fun s0 h0 => Option.some.inj h0⟩
      · simp only [hs, if_false, Bool.false_eq_true, if_true]
        have hnone : st.sessions.lookup sid0 = none :=
          Option.not_isSome_iff_eq_none.mp hs
        rw [lookup_append_none st.sessions sid0 ⟨0⟩ hnone]
        cases hw : o.waitResult with
        | ok p =>
            exact ⟨_, _, sid0, rfl, rfl, rfl, hl,
                   fun s0 h0 => Option.some.inj h0⟩
        | error e =>
            exact ⟨_, _, sid0, rfl, rfl, rfl, hl,
                   fun s0 h0 => Option.some.inj h0⟩
  | none =>
      simp only [hl]
      by_cases hs : (st.sessions.lookup (env.session_code.getD o.freshSid)).isSome
      · simp only [hs, if_true]
        rw [(Option.isSome_iff_exists.mp hs).choose_spec]
        cases hw : o.waitResult with
        | ok p =>
            exact ⟨_, _, env.session_code.getD o.freshSid, rfl, rfl, rfl,
                   lookup_append_none st.replyToSession defaultReplyTo _ hl,
                   fun s0 h0 => Option.noConfusion h0⟩
        | error e =>
            exact ⟨_, _, env.session_code.getD o.freshSid, rfl, rfl, rfl,
                   lookup_append_none st.replyToSession defaultReplyTo _ hl,
                   fun s0 h0 => Option.noConfusion h0⟩
      · simp only [hs, if_false, Bool.false_eq_true, if_true]
        have hnone : st.sessions.lookup (env.session_code.getD o.freshSid) = none :=
          Option.not_isSome_iff_eq_none.mp hs
        rw [lookup_append_none st.sessions _ ⟨0⟩ hnone]
        cases hw : o.waitResult with
        | ok p =>
            exact ⟨_, _, env.session_code.getD o.freshSid, rfl, rfl, rfl,
                   lookup_append_none st.replyToSession defaultReplyTo _ hl,
                   fun s0 h0 => Option.noConfusion h0⟩
        | error e =>
            exact ⟨_, _, env.session_code.getD o.freshSid, rfl, rfl, rfl,
                   lookup_append_none st.replyToSession defaultReplyTo _ hl,
                   fun s0 h0 => Option.noConfusion h0⟩

theorem bridge_default_reply_to_spec_witness :
    ∃ st' resp sid,
      handle_envelope "AG1:agent:GooseAgent:inbox" okOracles emptyBridgeSt noReplyEnv
          = .ok (st', [(defaultReplyTo, resp)])
        ∧ resp.reply_to = some defaultReplyTo
        ∧ resp.session_code = some sid
        ∧ st'.replyToSession.lookup defaultReplyTo = some sid
        ∧ (∀ sid0, emptyBridgeSt.replyToSession.lookup defaultReplyTo = some sid0
            → sid = sid0) :=
  bridge_default_reply_to_spec "AG1:agent:GooseAgent:inbox" okOracles
    emptyBridgeSt noReplyEnv "ping" rfl rfl rfl rfl rfl rfl
